import Mathlib

/-!
Verification of the File Content Extractor (src/main.py) against its
natural-language specification. The Python functions are shallowly embedded
as executable Lean definitions; file-system effects are modelled by explicit
oracles (functions from paths to read results) passed as arguments.
-/

namespace FileExtractor

/-- Model of Python "fnmatch.fnmatch" restricted to the pattern constructs
actually occurring in the ignore list of the program (literal characters, the
wildcard star and the single-character wildcard). As in Python, the star
matches ANY run of characters, including the path separator, and the whole
string must match the pattern. -/
def fnmatch : List Char → List Char → Bool
  | [], s => s.isEmpty
  | '*' :: ps, s => s.tails.any (fun t => fnmatch ps t)
  | '?' :: _, [] => false
  | '?' :: ps, _ :: cs => fnmatch ps cs
  | _ :: _, [] => false
  | p :: ps, c :: cs => p == c && fnmatch ps cs

/-- The ignore pattern list exactly as Python evaluates the literal in
should_ignore_path (src/main.py lines 24-46). The source omits the comma
after the .DS_Store literal at the end of line 34, so adjacent string
literal concatenation in Python fuses it with the *.pdf literal from line
37 into the single pattern .DS_Store*.pdf. -/
def ignore_patterns : List String :=
  [ "env/*", ".env/*", "venv/*", ".venv/*",
    ".gitignore", ".git/*",
    "__pycache__/*", "*.pyc", "*.pyo",
    ".pytest_cache/*", ".coverage",
    ".DS_Store", "Thumbs.db",
    "node_modules/*", ".npm/*",
    ".cache/*", "*.log",
    "*.min", "*.svg", "*.min.css", "*.woff", "*.min.js",
    "*.woff2", "*._.DS_Store", "*.DS_Store", ".DS_Store*.pdf",
    "*.png", "*.jpg", "*.jpeg", "*.gif", "*.ico",
    "*.zip", "*.tar", "*.gz", "*.rar", "*.7z",
    "*.exe", "*.dll", "*.so", "*.dylib",
    "*.db", "*.sqlite", "*.sqlite3",
    "*.pkl", "*.pickle",
    "*.bin", "*.dat",
    "*.mp3", "*.wav", "*.mp4", "*.avi", "*.mov",
    "*.doc", "*.docx", "*.xls", "*.xlsx", "*.ppt",
    "*.psd", "*.ai" ]

/-- Model of should_ignore_path (src/main.py lines 22-48): true iff any
pattern of the fixed list fnmatch-matches the path. -/
def should_ignore_path (path : String) : Bool :=
  ignore_patterns.any (fun pat => fnmatch pat.toList path.toList)

/-- Characters of the last path component (the part after the last slash),
as os.path.basename computes it for slash-free tails. -/
def basenameChars (p : List Char) : List Char :=
  ((p.reverse.takeWhile (fun c => c ≠ '/'))).reverse

/-- Extension of a basename in the sense of os.path.splitext: the suffix
starting at the last dot, except that leading dots of the basename do not
count as extension separators (".hidden" has no extension). Returns the
empty list when there is no extension. -/
def extChars (b : List Char) : List Char :=
  let stripped := b.dropWhile (fun c => c = '.')
  if stripped.contains '.' then
    '.' :: (stripped.reverse.takeWhile (fun c => c ≠ '.')).reverse
  else []

/-- Extension-to-content-type table: the entries of the built-in Python
mimetypes map that are relevant to the files mentioned by the
specification and tests of this program. A name without an extension maps to no type. -/
def mime_types_map : List (String × String) :=
  [ (".txt", "text/plain"), (".md", "text/markdown"), (".py", "text/x-python"),
    (".html", "text/html"), (".csv", "text/csv"), (".c", "text/x-csrc"),
    (".bin", "application/octet-stream"), (".pdf", "application/pdf"),
    (".png", "image/png"), (".jpg", "image/jpeg"), (".zip", "application/zip"),
    (".exe", "application/x-msdownload"), (".mp3", "audio/mpeg") ]

/-- Model of the Python method str.startswith: the characters of the first
string are an initial segment of the characters of the second. -/
def startswith (pre s : String) : Bool :=
  pre.toList.isPrefixOf s.toList

/-- Model of mimetypes.guess_type: look up the (lower-cased) extension of
the basename of the path in the type table; no extension or an unknown extension
yields no guess. -/
def guess_type (path : String) : Option String :=
  let e := String.mk ((extChars (basenameChars path.toList)).map Char.toLower)
  if e = "" then none else mime_types_map.lookup e

/-- Model of is_binary_file (src/main.py lines 7-20). The readBytes oracle
stands for opening the file in binary mode: it yields the bytes of the file, or
none when opening or reading raises. The function first consults the
content-type guess; only when no type is guessed does it read the first
1024 bytes and look for a null byte; a failed read classifies as binary. -/
def is_binary_file (readBytes : String → Option (List Nat)) (file_path : String) : Bool :=
  match guess_type file_path with
  | some mime_type => !(startswith "text/" mime_type)
  | none =>
    match readBytes file_path with
    | some bs => (bs.take 1024).contains 0
    | none => true

/-- Outcome of opening a file in text mode with UTF-8 encoding and reading
it whole, as extract_file_content does. -/
inductive ReadTextResult where
  | ok (content : String)
  | unicodeDecodeError
  | otherError (msg : String)
deriving DecidableEq, Repr

/-- A file-system state: the binary-read oracle used by is_binary_file and
the text-read oracle used by extract_file_content. -/
structure Fs where
  readBytes : String → Option (List Nat)
  readText : String → ReadTextResult

/-- Model of extract_file_content (src/main.py lines 50-61). -/
def extract_file_content (fs : Fs) (file_path : String) : String :=
  if is_binary_file fs.readBytes file_path then
    "[Skipped binary file: " ++ file_path ++ "]"
  else
    match fs.readText file_path with
    | .ok content => content
    | .unicodeDecodeError => "[Skipped: File " ++ file_path ++ " is not valid UTF-8 text]"
    | .otherError e => "[Error reading file " ++ file_path ++ ": " ++ e ++ "]"

/-- A Python dict with string keys and values, modelled as an association
list in insertion order: updating an existing key keeps its position and
replaces the value; a new key is appended at the end. -/
def dictInsert (k v : String) : List (String × String) → List (String × String)
  | [] => [(k, v)]
  | (k', v') :: rest => if k' = k then (k', v) :: rest else (k', v') :: dictInsert k v rest

/-- Model of d.update(other): insert every pair of other, in order, into d. -/
def dictUpdate (d other : List (String × String)) : List (String × String) :=
  other.foldl (fun acc kv => dictInsert kv.1 kv.2 acc) d

/-- Lookup in the dict model: value at the first occurrence of the key. -/
def dictLookup (k : String) : List (String × String) → Option String
  | [] => none
  | (k', v') :: rest => if k' = k then some v' else dictLookup k rest

/-- Keys of the dict model, in insertion order. -/
def dictKeys (d : List (String × String)) : List String :=
  d.map Prod.fst

/-- A directory tree entry: a plain file or a subdirectory with its own
entries, in listing order. -/
inductive Entry where
  | file (name : String)
  | dir (name : String) (children : List Entry)
deriving Repr

/-- Relative-path join: os.path.relpath of a child of root with relative
prefix rel is the bare name at the top and rel/name below. -/
def joinRel (rel name : String) : String :=
  if rel = "" then name else rel ++ "/" ++ name

/-- Files yielded by one os.walk iteration at relative prefix rel
(src/main.py lines 72-78): for each plain file, its path relative to the
walk root, kept unless it is in the ignore list of the caller or matches the
ignore patterns, and mapped to its full path under the root. -/
def filesOf (directory_path : String) (ignore_list : List String) (rel : String)
    (entries : List Entry) : List (String × String) :=
  entries.filterMap (fun e =>
    match e with
    | .file n =>
      let rel_path := joinRel rel n
      if ignore_list.contains rel_path || should_ignore_path rel_path then none
      else some (rel_path, directory_path ++ "/" ++ rel_path)
    | .dir _ _ => none)

/-- Depth-first descent of os.walk below one directory level: a
subdirectory whose bare name matches the ignore patterns is pruned
(src/main.py line 70) and never entered; each kept subdirectory
contributes its own files first and then the files of its descendants, in
pre-order, as os.walk yields them top-down. -/
def walkSubdirs (directory_path : String) (ignore_list : List String) (rel : String) :
    List Entry → List (String × String)
  | [] => []
  | .file _ :: rest => walkSubdirs directory_path ignore_list rel rest
  | .dir n cs :: rest =>
    (if should_ignore_path n then []
     else
       filesOf directory_path ignore_list (joinRel rel n) cs ++
       walkSubdirs directory_path ignore_list (joinRel rel n) cs) ++
    walkSubdirs directory_path ignore_list rel rest

/-- Model of get_files_from_directory (src/main.py lines 63-79): walk the
tree rooted at directory_path (given as its entry list) and build the
result dict in walk order. -/
def get_files_from_directory (directory_path : String) (ignore_list : List String)
    (entries : List Entry) : List (String × String) :=
  (filesOf directory_path ignore_list "" entries ++
   walkSubdirs directory_path ignore_list "" entries).foldl
    (fun d kv => dictInsert kv.1 kv.2 d) []

/-- Lexicographic less-or-equal on character lists, comparing code points
left to right, as Python compares strings. -/
def charListLe : List Char → List Char → Bool
  | [], _ => true
  | _ :: _, [] => false
  | a :: as, b :: bs => if a < b then true else if b < a then false else charListLe as bs

/-- Lexicographic less-or-equal on strings by code points (the Python
string order, used by sorted on the dict items). -/
def strLe (a b : String) : Bool :=
  charListLe a.toList b.toList

/-- Stable insertion of a (name, path) pair into a list sorted by name. -/
def orderedInsertKey (p : String × String) : List (String × String) → List (String × String)
  | [] => [p]
  | q :: qs => if strLe p.1 q.1 then p :: q :: qs else q :: orderedInsertKey p qs

/-- Model of the Python builtin sorted on dict items whose keys are distinct: a
stable sort by key. -/
def sortPairs (l : List (String × String)) : List (String × String) :=
  l.foldr orderedInsertKey []

/-- The labeled delimiter line of a block (src/main.py line 115). -/
def delimiter_line (file_name : String) : String :=
  "==================== " ++ file_name ++ " ====================\n"

/-- Model of the combined_content list built on generation (src/main.py
lines 110-117): over the sorted items of the file dict, skipping names in
the ignore list, append the delimiter line and then the extracted content
followed by two newlines. -/
def combined_content (fs : Fs) (files_to_process : List (String × String))
    (ignore_list : List String) : List String :=
  (sortPairs files_to_process).flatMap (fun p =>
    if ignore_list.contains p.1 then []
    else [delimiter_line p.1, extract_file_content fs p.2 ++ "\n\n"])

/-- Model of final_content (src/main.py line 119): the pieces joined with a
newline. -/
def final_content (fs : Fs) (files_to_process : List (String × String))
    (ignore_list : List String) : String :=
  String.intercalate "\n" (combined_content fs files_to_process ignore_list)

/-- Model of the end-of-run cleanup loop (src/main.py lines 128-134), run
over the stored paths of the file dict in order. The unlinkOk oracle tells
whether os.unlink succeeds on a path. A path is passed to unlink exactly
when it starts with the temporary-directory prefix; a failed unlink is
reported as an error message and the loop continues. Returns the list of
paths unlinked successfully and the list of paths whose unlink failed. -/
def cleanup (unlinkOk : String → Bool) (tmpdir : String) :
    List (String × String) → List String × List String
  | [] => ([], [])
  | (_, path) :: rest =>
    let done := cleanup unlinkOk tmpdir rest
    if startswith tmpdir path then
      if unlinkOk path then (path :: done.1, done.2)
      else (done.1, path :: done.2)
    else done

end FileExtractor

namespace FileExtractor

/-- File-system state of the two-file scenario of the specification: a file
named a.txt holding the five UTF-8 bytes of "hello", and a file named
b.bin whose bytes are not valid UTF-8. -/
def fsScenario : Fs where
  readBytes := fun p =>
    if p = "a.txt" then some [104, 101, 108, 108, 111]
    else if p = "b.bin" then some [0, 255, 254]
    else none
  readText := fun p =>
    if p = "a.txt" then .ok "hello"
    else if p = "b.bin" then .unicodeDecodeError
    else .otherError "No such file or directory"

/-- The discovered-file mapping of the scenario: exactly the two entries,
each stored at its own name. -/
def filesScenario : List (String × String) :=
  [("a.txt", "a.txt"), ("b.bin", "b.bin")]

/-- Binary detector as the specification words it in section 4.2, step by
step: consult the extension-based content-type guess first and classify by
whether it is a text type; only without a guess read the first 1024 bytes
and classify by the presence of a null byte; classify a failed read as
binary. -/
def is_binary_spec (readBytes : String → Option (List Nat)) (file_path : String) : Bool :=
  match guess_type file_path with
  | some t => if startswith "text/" t then false else true
  | none =>
    match readBytes file_path with
    | some bs => if (bs.take 1024).contains 0 then true else false
    | none => true

end FileExtractor

namespace FileExtractor

theorem fnmatch_single_star (cs : List Char) : fnmatch ['*'] cs = true := by
  have h : fnmatch ['*'] cs = cs.tails.any (fun t => fnmatch [] t) := by
    simp [fnmatch]
  rw [h, List.any_eq_true]
  exact ⟨[], (List.mem_tails _ _).mpr List.nil_suffix, by simp [fnmatch]⟩

theorem fnmatch_env_star (cs : List Char) :
    fnmatch "env/*".toList ('e' :: 'n' :: 'v' :: '/' :: cs) = true := by
  have h : fnmatch "env/*".toList ('e' :: 'n' :: 'v' :: '/' :: cs) = fnmatch ['*'] cs := by
    simp [fnmatch]
  rw [h, fnmatch_single_star]

end FileExtractor

namespace FileExtractor

theorem dictLookup_insert (k k' v' : String) (l : List (String × String)) :
    dictLookup k (dictInsert k' v' l) = if k' = k then some v' else dictLookup k l := by
  induction l with
  | nil => simp [dictInsert, dictLookup]
  | cons kv rest ih =>
    obtain ⟨k₀, v₀⟩ := kv
    by_cases h0 : k₀ = k'
    · subst h0
      by_cases hk : k₀ = k <;> simp [dictInsert, dictLookup, hk]
    · have h0' : k' ≠ k₀ := fun he => h0 he.symm
      by_cases hk : k₀ = k
      · subst hk
        simp [dictInsert, dictLookup, h0, h0']
      · simp [dictInsert, dictLookup, h0, hk, ih]

theorem dictKeys_nil : dictKeys [] = [] := rfl

theorem dictKeys_cons (p : String × String) (l : List (String × String)) :
    dictKeys (p :: l) = p.1 :: dictKeys l := rfl

theorem dictKeys_insert (k v : String) (l : List (String × String)) :
    dictKeys (dictInsert k v l) =
      if k ∈ dictKeys l then dictKeys l else dictKeys l ++ [k] := by
  induction l with
  | nil => simp [dictInsert, dictKeys]
  | cons kv rest ih =>
    obtain ⟨k₀, v₀⟩ := kv
    by_cases h0 : k₀ = k
    · subst h0
      rw [show dictInsert k₀ v ((k₀, v₀) :: rest) = (k₀, v) :: rest from by
        simp [dictInsert]]
      simp [dictKeys_cons]
    · have h0' : k ≠ k₀ := fun he => h0 he.symm
      rw [show dictInsert k v ((k₀, v₀) :: rest) = (k₀, v₀) :: dictInsert k v rest from by
        simp [dictInsert, h0]]
      rw [dictKeys_cons, dictKeys_cons, ih]
      by_cases hm : k ∈ dictKeys rest <;> simp [hm, h0']

theorem dictKeys_insert_nodup (k v : String) (l : List (String × String))
    (h : (dictKeys l).Nodup) : (dictKeys (dictInsert k v l)).Nodup := by
  rw [dictKeys_insert]
  by_cases hm : k ∈ dictKeys l
  · simpa [hm] using h
  · simp only [hm, if_false, List.nodup_append, List.nodup_singleton]
    refine ⟨h, trivial, ?_⟩
    intro a ha he
    simp at he
    exact hm (he ▸ ha)

theorem dictLookup_eq_none (k : String) (l : List (String × String))
    (h : k ∉ dictKeys l) : dictLookup k l = none := by
  induction l with
  | nil => rfl
  | cons kv rest ih =>
    obtain ⟨k₀, v₀⟩ := kv
    rw [dictKeys_cons, List.mem_cons] at h
    push_neg at h
    have h0 : ¬ k₀ = k := fun he => h.1 he.symm
    simp [dictLookup, h0, ih h.2]

theorem dictUpdate_lookup (u d : List (String × String))
    (hd : (dictKeys d).Nodup) (k : String) :
    dictLookup k (dictUpdate u d) =
      match dictLookup k d with
      | some v => some v
      | none => dictLookup k u := by
  induction d generalizing u with
  | nil => simp [dictUpdate, dictLookup]
  | cons kv rest ih =>
    obtain ⟨k₀, v₀⟩ := kv
    rw [dictKeys, List.map_cons, List.nodup_cons] at hd
    have hstep : dictUpdate u ((k₀, v₀) :: rest) = dictUpdate (dictInsert k₀ v₀ u) rest := rfl
    rw [hstep, ih _ hd.2]
    by_cases hk : k₀ = k
    · subst hk
      rw [dictLookup_eq_none k₀ rest hd.1]
      simp [dictLookup, dictLookup_insert]
    · cases hrest : dictLookup k rest <;> simp [dictLookup, hk, dictLookup_insert, hrest]

theorem dictUpdate_keys_nodup (u d : List (String × String))
    (hu : (dictKeys u).Nodup) : (dictKeys (dictUpdate u d)).Nodup := by
  induction d generalizing u with
  | nil => exact hu
  | cons kv rest ih => exact ih _ (dictKeys_insert_nodup kv.1 kv.2 u hu)

theorem charListLe_iff (as : List Char) : ∀ bs : List Char,
    charListLe as bs = true ↔ as ≤ bs := by
  have hlt : ∀ xs ys : List Char, xs < ys ↔ List.Lex (· < ·) xs ys := fun xs ys => Iff.rfl
  induction as with
  | nil =>
    intro bs
    apply iff_of_true rfl
    rw [← not_lt]
    intro h
    exact List.Lex.not_nil_right _ _ ((hlt bs []).mp h)
  | cons a as ih =>
    intro bs
    cases bs with
    | nil =>
      apply iff_of_false (by simp [charListLe])
      rw [← not_lt, not_not]
      exact List.nil_lt_cons a as
    | cons b bs =>
      rw [← not_lt]
      rcases lt_trichotomy a b with hab | hab | hab
      · apply iff_of_true (by simp [charListLe, hab])
        intro h
        cases (hlt _ _).mp h with
        | cons h' => exact lt_irrefl a hab
        | rel h' => exact lt_asymm hab h'
      · subst hab
        have hstep : charListLe (a :: as) (a :: bs) = charListLe as bs := by
          simp [charListLe]
        rw [hstep, ih bs, ← not_lt]
        constructor
        · intro hn h
          cases (hlt _ _).mp h with
          | cons h' => exact hn ((hlt _ _).mpr h')
          | rel h' => exact lt_irrefl a h'
        · intro hn h
          exact hn ((hlt _ _).mpr (List.Lex.cons ((hlt _ _).mp h)))
      · apply iff_of_false (by simp [charListLe, hab, lt_asymm hab])
        rw [not_not]
        exact (hlt _ _).mpr (List.Lex.rel hab)

theorem strLe_iff (a b : String) : strLe a b = true ↔ a ≤ b := by
  rw [show strLe a b = charListLe a.toList b.toList from rfl, charListLe_iff]
  exact String.le_iff_toList_le.symm

theorem orderedInsertKey_perm (p : String × String) (l : List (String × String)) :
    (orderedInsertKey p l).Perm (p :: l) := by
  induction l with
  | nil => exact List.Perm.refl _
  | cons q qs ih =>
    by_cases h : strLe p.1 q.1 = true
    · rw [show orderedInsertKey p (q :: qs) = p :: q :: qs from by
        simp [orderedInsertKey, h]]
    · rw [show orderedInsertKey p (q :: qs) = q :: orderedInsertKey p qs from by
        simp [orderedInsertKey, h]]
      exact (ih.cons q).trans (List.Perm.swap p q qs)

theorem sortPairs_perm (l : List (String × String)) : (sortPairs l).Perm l := by
  induction l with
  | nil => exact List.Perm.refl _
  | cons p rest ih =>
    rw [show sortPairs (p :: rest) = orderedInsertKey p (sortPairs rest) from rfl]
    exact (orderedInsertKey_perm p (sortPairs rest)).trans (ih.cons p)

theorem pairwise_orderedInsertKey (p : String × String) (l : List (String × String))
    (h : l.Pairwise (fun x y => x.1 ≤ y.1)) :
    (orderedInsertKey p l).Pairwise (fun x y => x.1 ≤ y.1) := by
  induction l with
  | nil => simp [orderedInsertKey]
  | cons q qs ih =>
    rcases List.pairwise_cons.mp h with ⟨hq, hqs⟩
    by_cases hle : strLe p.1 q.1 = true
    · rw [show orderedInsertKey p (q :: qs) = p :: q :: qs from by
        simp [orderedInsertKey, hle]]
      refine List.pairwise_cons.mpr ⟨?_, h⟩
      intro y hy
      rcases List.mem_cons.mp hy with rfl | hy'
      · exact (strLe_iff _ _).mp hle
      · exact le_trans ((strLe_iff _ _).mp hle) (hq y hy')
    · rw [show orderedInsertKey p (q :: qs) = q :: orderedInsertKey p qs from by
        simp [orderedInsertKey, hle]]
      refine List.pairwise_cons.mpr ⟨?_, ih hqs⟩
      intro y hy
      have hy' := (orderedInsertKey_perm p qs).mem_iff.mp hy
      rcases List.mem_cons.mp hy' with rfl | hy''
      · exact le_of_not_le (fun hc => hle ((strLe_iff _ _).mpr hc))
      · exact hq y hy''

theorem sortPairs_sorted (l : List (String × String)) :
    (sortPairs l).Pairwise (fun x y => x.1 ≤ y.1) := by
  induction l with
  | nil => simp [sortPairs]
  | cons p rest ih =>
    rw [show sortPairs (p :: rest) = orderedInsertKey p (sortPairs rest) from rfl]
    exact pairwise_orderedInsertKey p _ ih

/-- C1: the claim reads the ignore list as a genuinely itemized list that
contains the pattern for pdf files, so that should_ignore_path accepts
every bare pdf filename. The list as Python evaluates the source violates
this: the missing comma after the .DS_Store literal on line 34 fuses it
with the *.pdf literal into the single pattern .DS_Store*.pdf, so *.pdf
itself is absent, and should_ignore_path "report.pdf" returns false. -/
theorem c1_pdf_filename_not_ignored :
    should_ignore_path "report.pdf" = false ∧
    ".DS_Store*.pdf" ∈ ignore_patterns ∧ "*.pdf" ∉ ignore_patterns := by decide

/-- C2: the claim says the collected mapping never contains a file whose
relative path passes through an ignored directory segment at any depth.
The pruning step tests bare directory names against patterns of the form
name/* which never match a bare name, so should_ignore_path "node_modules"
is false and no directory is ever pruned; a readme.md directly below a
TOP-LEVEL node_modules is still excluded because its relative path matches
the node_modules/* pattern whole-string, but the same file below a nested
src/node_modules has relative path src/node_modules/readme.md, matches no
pattern, and IS collected. -/
theorem c2_nested_ignored_dir_contents_collected :
    dictLookup "src/node_modules/readme.md"
      (get_files_from_directory "root" []
        [Entry.dir "src" [Entry.dir "node_modules" [Entry.file "readme.md"]]]) =
      some "root/src/node_modules/readme.md" ∧
    dictKeys (get_files_from_directory "root" []
        [Entry.dir "node_modules" [Entry.file "readme.md"]]) = [] ∧
    should_ignore_path "node_modules" = false := by
  refine ⟨?_, ?_, by decide⟩ <;>
    simp +decide [get_files_from_directory, walkSubdirs, filesOf, dictInsert, dictKeys,
      dictLookup, joinRel]

/-- C3: is_binary_file decides exactly in the specified order and is total:
with a content-type guess it returns true iff the guessed type is not a
text type and never reads content; without a guess it classifies by a null
byte in the first 1024 bytes; an unreadable file classifies as binary. -/
theorem c3_is_binary_file_follows_spec
    (readBytes : String → Option (List Nat)) (file_path : String) :
    is_binary_file readBytes file_path = is_binary_spec readBytes file_path := by
  unfold is_binary_file is_binary_spec
  cases guess_type file_path with
  | some t => by_cases h : startswith "text/" t = true <;> simp [h]
  | none => cases readBytes file_path with
    | some bs => by_cases h : (bs.take 1024).contains 0 = true <;> simp [h]
    | none => rfl

/-- C4: on the two-file scenario of the specification, with nothing
excluded, generation yields exactly two blocks, a.txt first with its
content "hello" verbatim, then b.bin with the skipped-binary placeholder
that names b.bin. -/
theorem c4_two_file_scenario :
    combined_content fsScenario filesScenario [] =
      [delimiter_line "a.txt", "hello\n\n",
       delimiter_line "b.bin", "[Skipped binary file: b.bin]\n\n"] := by decide

/-- C5 counterexample: the claim says the star of a pattern never crosses a
path separator, so that the pattern for the env directory would not match a
path with two segments below env; in fact the fnmatch star crosses the
separator and "env/a/b" is matched and ignored. -/
theorem c5_counterexample_star_crosses_slash :
    fnmatch "env/*".toList "env/a/b".toList = true ∧
    should_ignore_path "env/a/b" = true := by decide

/-- C5 (amended): each pattern is matched with fnmatch semantics against
the whole string, where the star matches any run of characters INCLUDING
the path separator: the env pattern matches every path that extends
"env/", with one segment below env or several. -/
theorem c5_fnmatch_star_matches_across_segments (s : String) :
    fnmatch "env/*".toList ("env/" ++ s).toList = true ∧
    should_ignore_path ("env/" ++ s) = true := by
  have hdata : ("env/" ++ s).toList = 'e' :: 'n' :: 'v' :: '/' :: s.toList := by
    have h0 : ("env/" ++ s).toList = "env/".toList ++ s.toList := String.data_append ..
    simp only [h0]; rfl
  have hm : fnmatch "env/*".toList ("env/" ++ s).toList = true := by
    rw [hdata]; exact fnmatch_env_star s.toList
  refine ⟨hm, ?_⟩
  unfold should_ignore_path
  rw [List.any_eq_true]
  exact ⟨"env/*", by decide, hm⟩

theorem guess_type_eq_none_of_no_dot (path : String)
    (h : (basenameChars path.toList).contains '.' = false) :
    guess_type path = none := by
  have hmem : '.' ∉ basenameChars path.toList := by
    simpa [List.contains, List.elem_eq_mem] using h
  have hmem2 : '.' ∉ (basenameChars path.toList).dropWhile (fun c => c = '.') :=
    fun hc => hmem (List.dropWhile_subset _ hc)
  have hext : extChars (basenameChars path.toList) = [] := by
    simp only [extChars]
    rw [if_neg]
    simp only [List.contains, List.elem_eq_mem, decide_eq_true_eq]
    exact hmem2
  show (if String.mk ((extChars (basenameChars path.toList)).map Char.toLower) = ""
        then none
        else mime_types_map.lookup
          (String.mk ((extChars (basenameChars path.toList)).map Char.toLower))) = none
  rw [hext]
  rfl

/-- C10: a path whose basename carries no dot, as the generated name of an
temporary copy of an uploaded file does, gets no content-type guess, so
is_binary_file classifies it purely by the null-byte sniff of its stored
bytes, or as binary when the read fails; the extension of the original upload
name never enters the decision. -/
theorem c10_upload_classified_by_content_sniff
    (readBytes : String → Option (List Nat)) (path : String)
    (h : (basenameChars path.toList).contains '.' = false) :
    guess_type path = none ∧
    is_binary_file readBytes path =
      (match readBytes path with
       | some bs => (bs.take 1024).contains 0
       | none => true) := by
  have hg := guess_type_eq_none_of_no_dot path h
  exact ⟨hg, by simp [is_binary_file, hg]⟩

/-- Witness for C10 at a concrete temporary-file path and stored bytes. -/
theorem c10_witness :
    (basenameChars "/tmp/tmpa1b2c3".toList).contains '.' = false ∧
    is_binary_file (fun _ => some [0, 10, 13]) "/tmp/tmpa1b2c3" = true := by
  refine ⟨by decide, ?_⟩
  have h := c10_upload_classified_by_content_sniff
    (fun _ => some [0, 10, 13]) "/tmp/tmpa1b2c3" (by decide)
  exact h.2.trans (by decide)

/-- C6: extract_file_content is a total function returning a string in
every case: the skipped-binary placeholder when the detector flags the
file, the decoded content when reading succeeds, the invalid-UTF-8
placeholder when decoding fails, and a placeholder embedding the error
text for any other read error. -/
theorem c6_extract_file_content_cases (fs : Fs) (p : String) :
    (is_binary_file fs.readBytes p = true →
      extract_file_content fs p = "[Skipped binary file: " ++ p ++ "]") ∧
    (is_binary_file fs.readBytes p = false → ∀ c, fs.readText p = .ok c →
      extract_file_content fs p = c) ∧
    (is_binary_file fs.readBytes p = false → fs.readText p = .unicodeDecodeError →
      extract_file_content fs p = "[Skipped: File " ++ p ++ " is not valid UTF-8 text]") ∧
    (is_binary_file fs.readBytes p = false → ∀ e, fs.readText p = .otherError e →
      extract_file_content fs p = "[Error reading file " ++ p ++ ": " ++ e ++ "]") := by
  refine ⟨fun hb => ?_, fun hb c hr => ?_, fun hb hr => ?_, fun hb e hr => ?_⟩
  · simp [extract_file_content, hb]
  · simp [extract_file_content, hb, hr]
  · simp [extract_file_content, hb, hr]
  · simp [extract_file_content, hb, hr]

/-- Witness for C6: a dot-free file whose bytes hold a null byte is
rendered as the skipped-binary placeholder. -/
theorem c6_witness :
    extract_file_content
      { readBytes := fun _ => some [0], readText := fun _ => .ok "x" } "noext" =
      "[Skipped binary file: noext]" := by
  have h := c6_extract_file_content_cases
    { readBytes := fun _ => some [0], readText := fun _ => .ok "x" } "noext"
  exact h.1 (by decide)

/-- C7: merging the directory-collection dict into the uploads dict keeps
every key distinct, and the value found for a key after the merge is the
value of the directory dict whenever that dict holds the key, the uploads value
otherwise: the source merged last wins, so a directory file whose relative
name equals the name of an uploaded file overwrites the uploaded entry. -/
theorem c7_merge_last_wins (u d : List (String × String))
    (hu : (dictKeys u).Nodup) (hd : (dictKeys d).Nodup) :
    (dictKeys (dictUpdate u d)).Nodup ∧
    ∀ k, dictLookup k (dictUpdate u d) =
      match dictLookup k d with
      | some v => some v
      | none => dictLookup k u :=
  ⟨dictUpdate_keys_nodup u d hu, fun k => dictUpdate_lookup u d hd k⟩

/-- Witness for C7: a directory entry named like the uploaded one
overwrites the temporary path of the upload in the merged mapping. -/
theorem c7_witness :
    dictLookup "a.txt" (dictUpdate [("a.txt", "/tmp/tmpupload")] [("a.txt", "/dir/a.txt")]) =
      some "/dir/a.txt" := by
  have h := c7_merge_last_wins [("a.txt", "/tmp/tmpupload")] [("a.txt", "/dir/a.txt")]
    (by decide) (by decide)
  exact (h.2 "a.txt").trans (by decide)

/-- C8: the generated output holds exactly one block (delimiter line plus
content piece) per discovered file whose name is not in the ignore set,
the blocks follow the sorted items of the mapping, which are a permutation
of the discovered items with names in lexicographic order whatever the
discovery order was, and each delimiter line is 20 equals signs, a space,
the name, a space, and 20 equals signs. -/
theorem c8_output_blocks_sorted (fs : Fs) (files : List (String × String))
    (ignore_list : List String) :
    (sortPairs files).Perm files ∧
    (sortPairs files).Pairwise (fun x y => x.1 ≤ y.1) ∧
    combined_content fs files ignore_list =
      ((sortPairs files).filter (fun p => !(ignore_list.contains p.1))).flatMap
        (fun p => [delimiter_line p.1, extract_file_content fs p.2 ++ "\n\n"]) ∧
    ∀ n : String, (delimiter_line n).toList =
      List.replicate 20 '=' ++ [' '] ++ n.toList ++ [' '] ++
      List.replicate 20 '=' ++ ['\n'] := by
  refine ⟨sortPairs_perm files, sortPairs_sorted files, ?_, ?_⟩
  · have hgen : ∀ l : List (String × String),
        (l.flatMap (fun p =>
          if ignore_list.contains p.1 then []
          else [delimiter_line p.1, extract_file_content fs p.2 ++ "\n\n"])) =
        ((l.filter (fun p => !(ignore_list.contains p.1))).flatMap
          (fun p => [delimiter_line p.1, extract_file_content fs p.2 ++ "\n\n"])) := by
      intro l
      induction l with
      | nil => rfl
      | cons p rest ih =>
        rw [List.flatMap_cons, List.filter_cons, ih]
        cases hig : ignore_list.contains p.1 with
        | true => simp
        | false => simp
    exact hgen (sortPairs files)
  · intro n
    have h1 : "==================== ".toList = List.replicate 20 '=' ++ [' '] := by decide
    have h2 : " ====================\n".toList = [' '] ++ List.replicate 20 '=' ++ ['\n'] := by
      decide
    have hsplit : (delimiter_line n).toList =
        "==================== ".toList ++ n.toList ++ " ====================\n".toList := by
      simp [delimiter_line, String.data_append]
    rw [hsplit, h1, h2]
    simp

/-- C9: the cleanup pass attempts to unlink exactly the stored paths that
start with the temporary-directory prefix, whatever their source; for any
behavior of unlink, the successfully removed paths are those attempts that
succeed and the reported failures are those that fail, so one failure never
stops the remaining attempts, and a path outside the temporary directory is
never touched. -/
theorem c9_cleanup_unlinks_exactly_tmp_paths
    (unlinkOk : String → Bool) (tmpdir : String) (files : List (String × String)) :
    (cleanup unlinkOk tmpdir files).1 =
      (files.map Prod.snd).filter (fun p => startswith tmpdir p && unlinkOk p) ∧
    (cleanup unlinkOk tmpdir files).2 =
      (files.map Prod.snd).filter (fun p => startswith tmpdir p && !(unlinkOk p)) := by
  induction files with
  | nil => exact ⟨rfl, rfl⟩
  | cons kv rest ih =>
    obtain ⟨k, path⟩ := kv
    by_cases hs : startswith tmpdir path = true
    · by_cases ho : unlinkOk path = true
      · simp [cleanup, hs, ho, List.filter, ih.1, ih.2]
      · simp [cleanup, hs, ho, List.filter, ih.1, ih.2]
    · simp [cleanup, hs, List.filter, ih.1, ih.2]

end FileExtractor
